import Mathlib

/-!
Verification of `utils.py` from the LLM-Tutorials repository: a shallow
embedding of `generate_synthetic_sequences`, `train_step_recurrent` and
`valid_step_recurrent`, together with theorems settling the specified
properties. Machine floats are modelled as real numbers; the numpy random
stream is modelled as an explicit deterministic source of draws.
-/

set_option maxHeartbeats 1000000

noncomputable section

/-- Deterministic model of the random draws consumed by
`generate_synthetic_sequences`: for each sequence index it provides the raw
draw feeding `np.random.randint`, the binary long-term signal drawn by
`np.random.choice([0, 1])`, and the standard normal draw used by
`np.random.normal` at every time step. -/
structure RNG where
  lenDraw : ℕ → ℕ
  signal : ℕ → Bool
  noise : ℕ → ℕ → ℝ

/-- Model of `np.random.randint(low, high)`: it raises `ValueError` when
`low >= high`, and otherwise returns a value in `[low, high)` determined by
the raw draw. -/
def randint (low high draw : ℕ) : Except String ℕ :=
  if high ≤ low then .error "ValueError: low >= high"
  else .ok (low + draw % (high - low))

/-- Numeric value of the binary long-term signal. -/
def sigR (b : Bool) : ℝ := if b then 1 else 0

/-- Length drawn for sequence `i` on line 27 when `min_length ≤ max_length`:
the value `np.random.randint(min_length, max_length + 1)` produces from the
raw draw. -/
def seqLen (maxL minL : ℕ) (rng : RNG) (i : ℕ) : ℕ :=
  minL + rng.lenDraw i % (maxL + 1 - minL)

/-- Value of sequence `i` at position `t` before the long-term injection and
before normalization (lines 28-37): positions below 3 hold the binary signal,
and later positions follow the recurrence
`sequence[t] = sequence[t-1] * 0.8 + sin(t/10) + noise`, where the Gaussian
noise with mean 0 and standard deviation `noise_level` is modelled as
`noise_level` times a standard normal draw. -/
def preVal (nl : ℝ) (rng : RNG) (i : ℕ) : ℕ → ℝ
  | 0 => sigR (rng.signal i)
  | 1 => sigR (rng.signal i)
  | 2 => sigR (rng.signal i)
  | (t + 3) =>
    preVal nl rng i (t + 2) * 0.8 + Real.sin ((t + 3 : ℝ) / 10) +
      nl * rng.noise i (t + 3)

/-- Pre-injection values of sequence `i` as a list. -/
def preSeq (maxL minL : ℕ) (nl : ℝ) (rng : RNG) (i : ℕ) : List ℝ :=
  (List.range (seqLen maxL minL rng i)).map (preVal nl rng i)

/-- Model of `array.max()` on a nonempty array (0 on the empty array, which
the generator only meets after raising `ValueError`). -/
def listMax : List ℝ → ℝ
  | [] => 0
  | x :: xs => xs.foldl max x

/-- Model of `array.min()` on a nonempty array. -/
def listMin : List ℝ → ℝ
  | [] => 0
  | x :: xs => xs.foldl min x

/-- Per-sequence range `sequence.max() - sequence.min()` (line 39), computed
before the long-term injection. -/
def rangeOf (maxL minL : ℕ) (nl : ℝ) (rng : RNG) (i : ℕ) : ℝ :=
  listMax (preSeq maxL minL nl rng i) - listMin (preSeq maxL minL nl rng i)

/-- Running maximum of the per-sequence ranges over the first `n` sequences,
starting from `0.0` (lines 24 and 39); after the last sequence this is the
global normalization divisor. -/
def maxRange (maxL minL : ℕ) (nl : ℝ) (rng : RNG) (n : ℕ) : ℝ :=
  (List.range n).foldl (fun a i => max a (rangeOf maxL minL nl rng i)) 0

/-- Sequence `i` after the long-term injection (lines 42-43) and before
normalization: when the signal is 1, the last 10 positions (the whole
sequence when it is shorter than 10) are shifted up by 1. -/
def injSeq (maxL minL : ℕ) (nl : ℝ) (rng : RNG) (i : ℕ) : List ℝ :=
  (List.range (seqLen maxL minL rng i)).map fun t =>
    preVal nl rng i t +
      if rng.signal i = true ∧ seqLen maxL minL rng i - 10 ≤ t then 1 else 0

/-- Sequence `i` as returned: the injected sequence divided entrywise by the
global max-range over all `num` sequences (lines 49-50). -/
def normSeq (num maxL minL : ℕ) (nl : ℝ) (rng : RNG) (i : ℕ) : List ℝ :=
  (injSeq maxL minL nl rng i).map (· / maxRange maxL minL nl rng num)

/-- Label of sequence `i`: the long-term signal as an integer. -/
def labelOf (rng : RNG) (i : ℕ) : ℕ := if rng.signal i then 1 else 0

/-- Shallow embedding of `generate_synthetic_sequences` (utils.py lines
4-52). A call raises `ValueError` from `np.random.randint` when
`min_length > max_length` and at least one sequence is requested, and from
`array.max()` when a drawn length is zero; otherwise it returns the
normalized sequences together with the label array. -/
def generate_synthetic_sequences (num maxL minL : ℕ) (nl : ℝ) (rng : RNG) :
    Except String (List (List ℝ) × List ℕ) :=
  if num = 0 then .ok ([], [])
  else if maxL + 1 ≤ minL then .error "ValueError: low >= high"
  else if ∃ i < num, seqLen maxL minL rng i = 0 then
    .error "ValueError: zero-size array reduction"
  else
    .ok ((List.range num).map (normSeq num maxL minL nl rng),
         (List.range num).map (labelOf rng))

/-- Mode flag set by `model.train()` and `model.eval()`. -/
inductive Mode
  | train
  | eval
  deriving DecidableEq

/-- Observable side effects a step function performs, in program order. -/
inductive Effect
  | setMode (m : Mode)
  | zeroGrad
  | detachHidden
  | resetHidden
  | backward
  | optimizerStep
  deriving DecidableEq

/-- Python-level numeric value flowing through the loss bookkeeping: either a
plain number, such as the `0` that `sequence_loss` starts from on line 72, or
a torch tensor. Only tensors support `.item()`. -/
inductive PyNum
  | scalar : ℝ → PyNum
  | tensor : ℝ → PyNum

/-- Python addition on these values: any sum involving a tensor is a tensor. -/
def PyNum.add : PyNum → PyNum → PyNum
  | .scalar a, .scalar b => .scalar (a + b)
  | .scalar a, .tensor b => .tensor (a + b)
  | .tensor a, .scalar b => .tensor (a + b)
  | .tensor a, .tensor b => .tensor (a + b)

instance : Add PyNum := ⟨PyNum.add⟩

/-- Multiplication of a python float by one of these values. -/
def PyNum.smul (r : ℝ) : PyNum → PyNum
  | .scalar a => .scalar (r * a)
  | .tensor a => .tensor (r * a)

/-- Model of `.item()`: it succeeds on tensors only; on a plain number the
attribute lookup raises `AttributeError`. -/
def PyNum.item : PyNum → Option ℝ
  | .scalar _ => none
  | .tensor a => some a

/-- Opaque recurrent model collaborator: the hidden state value its reset
operation installs, and a forward pass that, in a given mode, consumes one
batch column and yields the updated hidden state with the batch of
predictions (one prediction per batch row). -/
structure RModel (H : Type) where
  init : H
  fwd : Mode → H → (ℕ → ℝ) → H × (ℕ → ℝ)

/-- Index of the first maximal entry of a list; model of `tensor.argmax(-1)`
applied to one row. -/
def argmaxIdx : List ℝ → ℕ
  | [] => 0
  | x :: xs =>
    let j := argmaxIdx xs
    if xs.getD j x ≤ x then 0 else j + 1

/-- Token-by-token generation loop (lines 78-84 and 124-130): starting from
hidden state `h`, run the first `n` iterations, threading the hidden state
and adding each step's generation loss tensor to the accumulator that starts
as the plain number 0. -/
def genLoop {H : Type} (m : Mode) (model : RModel H)
    (critGen : (ℕ → ℝ) → (ℕ → ℝ) → ℝ) (seqs : ℕ → ℕ → ℝ) :
    ℕ → H → H × PyNum
  | 0, h => (h, .scalar 0)
  | n + 1, h =>
    let p := genLoop m model critGen seqs n h
    let fw := model.fwd m p.1 (fun b => seqs b n)
    (fw.1, p.2 + .tensor (critGen fw.2 (fun b => seqs b (n + 1))))

/-- Result of one step call: the effects performed, the hidden state the
model carries afterwards, and, when no exception is raised, the returned loss
3-tuple together with the returned accuracy. -/
structure StepOut (H : Type) where
  trace : List Effect
  hidden : H
  result : Option ((ℝ × ℝ × ℝ) × ℝ)

/-- Accuracy as computed on lines 99 and 139: the fraction of batch rows
whose arg-max class of the classification logits equals the integer label. -/
def classAccuracy (B : ℕ) (yhat : ℕ → List ℝ) (labs : ℕ → ℕ) : ℝ :=
  (∑ b ∈ Finset.range B,
    if argmaxIdx (yhat b) = labs b then (1 : ℝ) else 0) / B

/-- Loss bookkeeping and return value shared by lines 91 and 101 of the train
step and lines 137 and 141 of the validation step:
`total_loss = weight_gen * sequence_loss + weight_class * class_loss`, then
the returned `(total_loss.item(), sequence_loss.item(), class_loss.item())`
with the accuracy; the call raises when `sequence_loss` is still the plain
number 0. -/
def stepResult (sl : PyNum) (classLoss : ℝ) (wg wc acc : ℝ) :
    Option ((ℝ × ℝ × ℝ) × ℝ) :=
  match (PyNum.smul wg sl + PyNum.smul wc (.tensor classLoss)).item,
      sl.item, (PyNum.tensor classLoss).item with
  | some t, some s, some c => some ((t, s, c), acc)
  | _, _, _ => none

/-- Shallow embedding of `train_step_recurrent` (utils.py lines 55-101).
`B` is the batch size, `L` the shared sequence length `len(seqs[0])`,
`seqs b t` the value of batch row `b` at time `t`, `h₀` the hidden state the
model carries into the call, and `headF` the classification head returning
one row of class logits per batch row. -/
def train_step_recurrent {H : Type} (model : RModel H)
    (headF : Mode → H → ℕ → List ℝ) (h₀ : Option H)
    (B L : ℕ) (seqs : ℕ → ℕ → ℝ) (labs : ℕ → ℕ)
    (critGen : (ℕ → ℝ) → (ℕ → ℝ) → ℝ)
    (critClass : (ℕ → List ℝ) → (ℕ → ℕ) → ℝ)
    (wg wc : ℝ) : StepOut H :=
  let p := genLoop .train model critGen seqs (L - 1) model.init
  let yhat := headF .train p.1
  let classLoss := critClass yhat labs
  { trace := [.setMode .train, .zeroGrad] ++
      (if h₀.isSome then [.detachHidden] else []) ++
      [.resetHidden, .backward, .optimizerStep]
    hidden := p.1
    result := stepResult p.2 classLoss wg wc (classAccuracy B yhat labs) }

/-- Shallow embedding of `valid_step_recurrent` (utils.py lines 104-141),
with the parameters read as in `train_step_recurrent`. -/
def valid_step_recurrent {H : Type} (model : RModel H)
    (headF : Mode → H → ℕ → List ℝ) (h₀ : Option H)
    (B L : ℕ) (seqs : ℕ → ℕ → ℝ) (labs : ℕ → ℕ)
    (critGen : (ℕ → ℝ) → (ℕ → ℝ) → ℝ)
    (critClass : (ℕ → List ℝ) → (ℕ → ℕ) → ℝ)
    (wg wc : ℝ) : StepOut H :=
  let p := genLoop .eval model critGen seqs (L - 1) model.init
  let yhat := headF .eval p.1
  let classLoss := critClass yhat labs
  { trace := [.setMode .eval] ++
      (if h₀.isSome then [.detachHidden] else []) ++
      [.resetHidden]
    hidden := p.1
    result := stepResult p.2 classLoss wg wc (classAccuracy B yhat labs) }

/-- Modelled from the claim's words, for comparison with the code: the
fraction of batch rows where the arg-max class of the last per-step
generation prediction equals the arg-max class of the last next-value
target. Both tensors carry one entry per batch row. -/
def specLastStepAccuracy {H : Type} (model : RModel H) (m : Mode)
    (B L : ℕ) (seqs : ℕ → ℕ → ℝ)
    (critGen : (ℕ → ℝ) → (ℕ → ℝ) → ℝ) : ℝ :=
  let hPrev := (genLoop m model critGen seqs (L - 2) model.init).1
  let lastPred := (model.fwd m hPrev (fun b => seqs b (L - 2))).2
  (∑ b ∈ Finset.range B,
    if argmaxIdx [lastPred b] = argmaxIdx [seqs b (L - 1)] then (1 : ℝ)
    else 0) / B

/-- Concrete draw source whose signal is always 0, used to exercise the
generator on explicit inputs. -/
def constRNG : RNG := ⟨fun _ => 0, fun _ => false, fun _ _ => 0⟩

/-- Concrete draw source whose signal is always 1. -/
def oneRNG : RNG := ⟨fun _ => 0, fun _ => true, fun _ _ => 0⟩

/-- Concrete recurrent model on a unit hidden state whose forward pass always
predicts 5, used to exercise the step functions on explicit inputs. -/
def cModel : RModel Unit := ⟨(), fun _ h _ => (h, fun _ => 5)⟩

/-- Concrete generation criterion that always reports loss 0. -/
def zeroCritGen : (ℕ → ℝ) → (ℕ → ℝ) → ℝ := fun _ _ => 0

/-- Concrete classification criterion that always reports loss 0. -/
def zeroCritClass : (ℕ → List ℝ) → (ℕ → ℕ) → ℝ := fun _ _ => 0

/-- Concrete classification head whose logits `[0, 1]` put the arg-max at
class 1 for every row. -/
def headC1 : Mode → Unit → ℕ → List ℝ := fun _ _ _ => [0, 1]

/-- Concrete classification head with a single class. -/
def zeroHead : Mode → Unit → ℕ → List ℝ := fun _ _ _ => [0]

/-- Concrete all-zero batch of sequences. -/
def zeroSeqs : ℕ → ℕ → ℝ := fun _ _ => 0

/-- Concrete all-zero label batch. -/
def zeroLabs : ℕ → ℕ := fun _ => 0

/-- Concrete draw source whose noise draws cancel the sine oscillation and
add 1, giving rational sequence values at `noise_level = 1`. -/
def cancelRNG : RNG :=
  ⟨fun _ => 0, fun _ => false, fun _ t => 1 - Real.sin ((t : ℝ) / 10)⟩

/-- Entry `t` of the first returned sequence of a generator call (0 when the
call raised or returned no sequence). -/
def retEntry (r : Except String (List (List ℝ) × List ℕ)) (t : ℕ) : ℝ :=
  match r with
  | .ok (s :: _, _) => s.getD t 0
  | _ => 0

end

/-! Helper lemmas -/

@[simp]
theorem PyNum.smul_scalar (r a : ℝ) :
    PyNum.smul r (.scalar a) = .scalar (r * a) := rfl

@[simp]
theorem PyNum.smul_tensor (r a : ℝ) :
    PyNum.smul r (.tensor a) = .tensor (r * a) := rfl

@[simp]
theorem PyNum.scalar_add_scalar (a b : ℝ) :
    PyNum.scalar a + PyNum.scalar b = .scalar (a + b) := rfl

@[simp]
theorem PyNum.scalar_add_tensor (a b : ℝ) :
    PyNum.scalar a + PyNum.tensor b = .tensor (a + b) := rfl

@[simp]
theorem PyNum.tensor_add_scalar (a b : ℝ) :
    PyNum.tensor a + PyNum.scalar b = .tensor (a + b) := rfl

@[simp]
theorem PyNum.tensor_add_tensor (a b : ℝ) :
    PyNum.tensor a + PyNum.tensor b = .tensor (a + b) := rfl

@[simp]
theorem PyNum.item_scalar (a : ℝ) : PyNum.item (.scalar a) = none := rfl

@[simp]
theorem PyNum.item_tensor (a : ℝ) : PyNum.item (.tensor a) = some a := rfl

@[simp]
theorem stepResult_scalar (x cl wg wc acc : ℝ) :
    stepResult (.scalar x) cl wg wc acc = none := rfl

@[simp]
theorem stepResult_tensor (s cl wg wc acc : ℝ) :
    stepResult (.tensor s) cl wg wc acc =
      some ((wg * s + wc * cl, s, cl), acc) := rfl

theorem stepResult_some {sl : PyNum} {cl wg wc acc t s c a : ℝ}
    (h : stepResult sl cl wg wc acc = some ((t, s, c), a)) :
    t = wg * s + wc * c ∧ a = acc := by
  cases sl with
  | scalar x => simp at h
  | tensor x =>
    simp only [stepResult_tensor, Option.some.injEq, Prod.mk.injEq] at h
    obtain ⟨⟨ht, hs, hc⟩, ha⟩ := h
    subst ht hs hc ha
    exact ⟨rfl, rfl⟩

theorem PyNum.add_tensor_ex (p : PyNum) (l : ℝ) :
    ∃ y, p + PyNum.tensor l = .tensor y := by
  cases p <;> exact ⟨_, rfl⟩

theorem genLoop_snd_tensor {H : Type} (m : Mode) (model : RModel H)
    (cg : (ℕ → ℝ) → (ℕ → ℝ) → ℝ) (seqs : ℕ → ℕ → ℝ) (n : ℕ) (h : H) :
    ∃ x, (genLoop m model cg seqs (n + 1) h).2 = .tensor x := by
  simp only [genLoop]
  exact PyNum.add_tensor_ex _ _

theorem genLoop_mode {H : Type} (model : RModel H)
    (cg : (ℕ → ℝ) → (ℕ → ℝ) → ℝ) (seqs : ℕ → ℕ → ℝ)
    (hfwd : model.fwd .train = model.fwd .eval) :
    ∀ n h, genLoop .train model cg seqs n h = genLoop .eval model cg seqs n h := by
  intro n
  induction n with
  | zero => exact fun h => rfl
  | succ k ih =>
    intro h
    simp only [genLoop, ih h, hfwd]


/-! Claim theorems for the step executor -/

/-- C4: for every batch and every pair of weights, whenever the train step or
the validation step returns, the returned total loss equals
`weight_gen * gen_loss + weight_class * class_loss`. -/
theorem C4_total_loss_combination {H : Type} (model : RModel H)
    (headF : Mode → H → ℕ → List ℝ) (h₀ : Option H) (B L : ℕ)
    (seqs : ℕ → ℕ → ℝ) (labs : ℕ → ℕ)
    (cg : (ℕ → ℝ) → (ℕ → ℝ) → ℝ) (cc : (ℕ → List ℝ) → (ℕ → ℕ) → ℝ)
    (wg wc : ℝ) :
    (∀ t s c a,
      (train_step_recurrent model headF h₀ B L seqs labs cg cc wg wc).result =
        some ((t, s, c), a) → t = wg * s + wc * c) ∧
    (∀ t s c a,
      (valid_step_recurrent model headF h₀ B L seqs labs cg cc wg wc).result =
        some ((t, s, c), a) → t = wg * s + wc * c) := by
  constructor <;>
    · intro t s c a h
      simp only [train_step_recurrent, valid_step_recurrent] at h
      exact (stepResult_some h).1

/-- Witness for C4 at a concrete batch of one length-2 sequence. -/
theorem C4_witness :
    (train_step_recurrent cModel zeroHead none 1 2 zeroSeqs zeroLabs
        zeroCritGen zeroCritClass 1 1).result = some ((0, 0, 0), 1) ∧
    (0 : ℝ) = 1 * 0 + 1 * 0 := by
  have h : (train_step_recurrent cModel zeroHead none 1 2 zeroSeqs zeroLabs
      zeroCritGen zeroCritClass 1 1).result = some ((0, 0, 0), 1) := by
    norm_num [train_step_recurrent, genLoop, cModel, zeroHead, zeroSeqs,
      zeroLabs, zeroCritGen, zeroCritClass, classAccuracy, argmaxIdx,
      stepResult]
  exact ⟨h, (C4_total_loss_combination cModel zeroHead none 1 2 zeroSeqs
    zeroLabs zeroCritGen zeroCritClass 1 1).1 0 0 0 1 h⟩

/-- C9: for every batch whose shared sequence length is 1, the generation
loop never runs, in both variants the accumulated generation loss stays the
plain number 0, converting it with `.item()` fails, and both step functions
raise instead of returning. -/
theorem C9_length_one_fails {H : Type} (model : RModel H)
    (headF : Mode → H → ℕ → List ℝ) (h₀ : Option H) (B L : ℕ)
    (seqs : ℕ → ℕ → ℝ) (labs : ℕ → ℕ)
    (cg : (ℕ → ℝ) → (ℕ → ℝ) → ℝ) (cc : (ℕ → List ℝ) → (ℕ → ℕ) → ℝ)
    (wg wc : ℝ) (hL : L = 1) :
    (genLoop Mode.train model cg seqs (L - 1) model.init).2 = .scalar 0 ∧
    (genLoop Mode.eval model cg seqs (L - 1) model.init).2 = .scalar 0 ∧
    PyNum.item (.scalar 0) = none ∧
    (train_step_recurrent model headF h₀ B L seqs labs cg cc wg wc).result =
      none ∧
    (valid_step_recurrent model headF h₀ B L seqs labs cg cc wg wc).result =
      none := by
  subst hL
  refine ⟨rfl, rfl, rfl, ?_, ?_⟩ <;>
    simp [train_step_recurrent, valid_step_recurrent, genLoop]

/-- Witness for C9 at a concrete length-1 batch. -/
theorem C9_witness :
    1 = 1 ∧
    ((genLoop Mode.train cModel zeroCritGen zeroSeqs (1 - 1) cModel.init).2 =
        .scalar 0 ∧
      (genLoop Mode.eval cModel zeroCritGen zeroSeqs (1 - 1) cModel.init).2 =
        .scalar 0 ∧
      PyNum.item (.scalar 0) = none ∧
      (train_step_recurrent cModel zeroHead none 1 1 zeroSeqs zeroLabs
        zeroCritGen zeroCritClass 1 1).result = none ∧
      (valid_step_recurrent cModel zeroHead none 1 1 zeroSeqs zeroLabs
        zeroCritGen zeroCritClass 1 1).result = none) :=
  ⟨rfl, C9_length_one_fails cModel zeroHead none 1 1 zeroSeqs zeroLabs
    zeroCritGen zeroCritClass 1 1 rfl⟩

/-- C10: when the model and the head behave identically in training and
evaluation mode, the validation step returns the same loss 3-tuple and the
same accuracy as the train step on the same inputs from the same initial
model state. -/
theorem C10_valid_matches_train {H : Type} (model : RModel H)
    (headF : Mode → H → ℕ → List ℝ) (h₀ : Option H) (B L : ℕ)
    (seqs : ℕ → ℕ → ℝ) (labs : ℕ → ℕ)
    (cg : (ℕ → ℝ) → (ℕ → ℝ) → ℝ) (cc : (ℕ → List ℝ) → (ℕ → ℕ) → ℝ)
    (wg wc : ℝ)
    (hfwd : model.fwd .train = model.fwd .eval)
    (hhead : headF .train = headF .eval) :
    (train_step_recurrent model headF h₀ B L seqs labs cg cc wg wc).result =
      (valid_step_recurrent model headF h₀ B L seqs labs cg cc wg wc).result := by
  simp only [train_step_recurrent, valid_step_recurrent,
    genLoop_mode model cg seqs hfwd, hhead]

/-- Witness for C10 with a mode-independent model and head. -/
theorem C10_witness :
    cModel.fwd .train = cModel.fwd .eval ∧
    zeroHead .train = zeroHead .eval ∧
    (train_step_recurrent cModel zeroHead none 1 2 zeroSeqs zeroLabs
        zeroCritGen zeroCritClass 1 1).result =
      (valid_step_recurrent cModel zeroHead none 1 2 zeroSeqs zeroLabs
        zeroCritGen zeroCritClass 1 1).result :=
  ⟨rfl, rfl, C10_valid_matches_train cModel zeroHead none 1 2 zeroSeqs
    zeroLabs zeroCritGen zeroCritClass 1 1 rfl rfl⟩

/-- C5 counterexample: on a concrete call whose carried hidden state is not
`None`, the validation step does perform the detach step, refuting the claim
that only the train variant detaches. -/
theorem C5_counterexample :
    Effect.detachHidden ∈
      (valid_step_recurrent cModel zeroHead (some ()) 1 2 zeroSeqs zeroLabs
        zeroCritGen zeroCritClass 1 1).trace := by
  simp [valid_step_recurrent]

/-- C5 amended: both the train variant and the validation variant detach the
carried hidden state (exactly when it is not `None`) before resetting it. -/
theorem C5_both_variants_detach {H : Type} (model : RModel H)
    (headF : Mode → H → ℕ → List ℝ) (h₀ : Option H) (B L : ℕ)
    (seqs : ℕ → ℕ → ℝ) (labs : ℕ → ℕ)
    (cg : (ℕ → ℝ) → (ℕ → ℝ) → ℝ) (cc : (ℕ → List ℝ) → (ℕ → ℕ) → ℝ)
    (wg wc : ℝ) :
    (Effect.detachHidden ∈
        (train_step_recurrent model headF h₀ B L seqs labs cg cc wg wc).trace ↔
      h₀.isSome = true) ∧
    (Effect.detachHidden ∈
        (valid_step_recurrent model headF h₀ B L seqs labs cg cc wg wc).trace ↔
      h₀.isSome = true) := by
  cases h₀ <;> simp [train_step_recurrent, valid_step_recurrent]

/-- C6: the generator is deterministic in the random draws: two calls with
identical parameters and identical draw sources return identical sequences
and labels. -/
theorem C6_generator_deterministic (num maxL minL : ℕ) (nl : ℝ)
    (rng₁ rng₂ : RNG) (h : rng₁ = rng₂) :
    generate_synthetic_sequences num maxL minL nl rng₁ =
      generate_synthetic_sequences num maxL minL nl rng₂ := by
  rw [h]

/-- Witness for C6 at concrete parameters. -/
theorem C6_witness :
    constRNG = constRNG ∧
    generate_synthetic_sequences 2 7 3 0 constRNG =
      generate_synthetic_sequences 2 7 3 0 constRNG :=
  ⟨rfl, C6_generator_deterministic 2 7 3 0 constRNG constRNG rfl⟩

/-- C8 counterexample: a call with `min_length > max_length` but
`num_sequences = 0` returns normally with empty outputs, because the length
sampler is never invoked. -/
theorem C8_counterexample :
    generate_synthetic_sequences 0 0 1 0 constRNG = .ok ([], []) := by
  simp [generate_synthetic_sequences]

/-- C8 amended: every call with `min_length > max_length` that requests at
least one sequence raises `ValueError` from the underlying length sampler
instead of returning or clamping. -/
theorem C8_min_gt_max_raises (num maxL minL : ℕ) (nl : ℝ) (rng : RNG)
    (hnum : 1 ≤ num) (hlt : maxL < minL) :
    generate_synthetic_sequences num maxL minL nl rng =
      .error "ValueError: low >= high" := by
  unfold generate_synthetic_sequences
  rw [if_neg (by omega), if_pos (by omega)]

/-- Witness for C8 at `num_sequences = 1`, `max_length = 0`,
`min_length = 1`. -/
theorem C8_witness :
    1 ≤ 1 ∧ 0 < 1 ∧
    generate_synthetic_sequences 1 0 1 0 constRNG =
      .error "ValueError: low >= high" :=
  ⟨le_refl 1, Nat.zero_lt_one,
    C8_min_gt_max_raises 1 0 1 0 constRNG (le_refl 1) Nat.zero_lt_one⟩

/-- C1 counterexample: a concrete batch where the train step returns accuracy
0, although the fraction obtained by comparing the last generation
prediction's arg-max against the last target's arg-max is 1; the returned
accuracy therefore is not the quantity the claim describes. -/
theorem C1_counterexample :
    (train_step_recurrent cModel headC1 none 1 2 zeroSeqs zeroLabs
        zeroCritGen zeroCritClass 1 1).result = some ((0, 0, 0), 0) ∧
    specLastStepAccuracy cModel Mode.train 1 2 zeroSeqs zeroCritGen = 1 ∧
    (0 : ℝ) ≠ 1 := by
  refine ⟨?_, ?_, by norm_num⟩
  · norm_num [train_step_recurrent, genLoop, cModel, headC1, zeroSeqs,
      zeroLabs, zeroCritGen, zeroCritClass, classAccuracy, argmaxIdx,
      stepResult]
  · norm_num [specLastStepAccuracy, genLoop, cModel, zeroSeqs, zeroCritGen,
      argmaxIdx]

/-- C1 amended: the accuracy returned by both the train step and the
validation step is the fraction of batch rows whose arg-max class of the
classification head's prediction on the final hidden state equals the true
label. -/
theorem C1_accuracy_is_classification {H : Type} (model : RModel H)
    (headF : Mode → H → ℕ → List ℝ) (h₀ : Option H) (B L : ℕ)
    (seqs : ℕ → ℕ → ℝ) (labs : ℕ → ℕ)
    (cg : (ℕ → ℝ) → (ℕ → ℝ) → ℝ) (cc : (ℕ → List ℝ) → (ℕ → ℕ) → ℝ)
    (wg wc : ℝ) :
    (∀ t s c a,
      (train_step_recurrent model headF h₀ B L seqs labs cg cc wg wc).result =
        some ((t, s, c), a) →
      a = classAccuracy B
        (headF .train (genLoop .train model cg seqs (L - 1) model.init).1)
        labs) ∧
    (∀ t s c a,
      (valid_step_recurrent model headF h₀ B L seqs labs cg cc wg wc).result =
        some ((t, s, c), a) →
      a = classAccuracy B
        (headF .eval (genLoop .eval model cg seqs (L - 1) model.init).1)
        labs) := by
  constructor <;>
    · intro t s c a h
      simp only [train_step_recurrent, valid_step_recurrent] at h
      exact (stepResult_some h).2

/-- Witness for C1 at a concrete batch of one length-2 sequence. -/
theorem C1_witness :
    (train_step_recurrent cModel zeroHead none 1 2 zeroSeqs zeroLabs
        zeroCritGen zeroCritClass 1 1).result = some ((0, 0, 0), 1) ∧
    (1 : ℝ) = classAccuracy 1
      (zeroHead .train
        (genLoop .train cModel zeroCritGen zeroSeqs (2 - 1) cModel.init).1)
      zeroLabs := by
  have h : (train_step_recurrent cModel zeroHead none 1 2 zeroSeqs zeroLabs
      zeroCritGen zeroCritClass 1 1).result = some ((0, 0, 0), 1) := by
    norm_num [train_step_recurrent, genLoop, cModel, zeroHead, zeroSeqs,
      zeroLabs, zeroCritGen, zeroCritClass, classAccuracy, argmaxIdx,
      stepResult]
  exact ⟨h, (C1_accuracy_is_classification cModel zeroHead none 1 2 zeroSeqs
    zeroLabs zeroCritGen zeroCritClass 1 1).1 0 0 0 1 h⟩

/-! Generator evaluation lemmas -/

theorem preVal_zero (nl : ℝ) (rng : RNG) (i : ℕ) :
    preVal nl rng i 0 = sigR (rng.signal i) := rfl

theorem preVal_one (nl : ℝ) (rng : RNG) (i : ℕ) :
    preVal nl rng i 1 = sigR (rng.signal i) := rfl

theorem preVal_two (nl : ℝ) (rng : RNG) (i : ℕ) :
    preVal nl rng i 2 = sigR (rng.signal i) := rfl

theorem preVal_add_three (nl : ℝ) (rng : RNG) (i t : ℕ) :
    preVal nl rng i (t + 3) =
      preVal nl rng i (t + 2) * 0.8 + Real.sin ((t + 3 : ℝ) / 10) +
        nl * rng.noise i (t + 3) := rfl

theorem preVal_three (nl : ℝ) (rng : RNG) (i : ℕ) :
    preVal nl rng i 3 =
      preVal nl rng i 2 * (4 / 5) + Real.sin (3 / 10) + nl * rng.noise i 3 := by
  have h := preVal_add_three nl rng i 0
  norm_num at h
  exact h

theorem preVal_four (nl : ℝ) (rng : RNG) (i : ℕ) :
    preVal nl rng i 4 =
      preVal nl rng i 3 * (4 / 5) + Real.sin (2 / 5) + nl * rng.noise i 4 := by
  have h := preVal_add_three nl rng i 1
  norm_num at h
  exact h

theorem getD_map_range (f : ℕ → ℝ) (L t : ℕ) (h : t < L) :
    ((List.range L).map f).getD t 0 = f t := by
  rw [List.getD_eq_getElem?_getD]
  simp [List.getElem?_map, List.getElem?_range, h]

theorem sin3_gt : (29 : ℝ) / 100 < Real.sin (3 / 10) := by
  have h := Real.sin_gt_sub_cube (by norm_num : (0 : ℝ) < 3 / 10)
    (by norm_num : (3 : ℝ) / 10 ≤ 1)
  norm_num at h
  linarith

theorem sin3_lt : Real.sin (3 / 10) < (3 : ℝ) / 10 :=
  Real.sin_lt (by norm_num)

theorem sin4_gt : (19 : ℝ) / 50 < Real.sin (2 / 5) := by
  have h := Real.sin_gt_sub_cube (by norm_num : (0 : ℝ) < 2 / 5)
    (by norm_num : (2 : ℝ) / 5 ≤ 1)
  norm_num at h
  linarith

theorem sin4_lt : Real.sin (2 / 5) < (2 : ℝ) / 5 :=
  Real.sin_lt (by norm_num)

theorem seqLen_five (rng : RNG) : seqLen 5 5 rng 0 = 5 := by
  simp [seqLen, Nat.mod_one]

theorem gen_155_ok (rng : RNG) :
    generate_synthetic_sequences 1 5 5 0 rng =
      .ok ([normSeq 1 5 5 0 rng 0], [labelOf rng 0]) := by
  simp [generate_synthetic_sequences, Nat.lt_one_iff, seqLen_five,
    show List.range 1 = [0] from rfl]

theorem retEntry_gen_155 (rng : RNG) (t : ℕ) (ht : t < 5) :
    retEntry (generate_synthetic_sequences 1 5 5 0 rng) t =
      (preVal 0 rng 0 t + if rng.signal 0 = true then 1 else 0) /
        maxRange 5 5 0 rng 1 := by
  rw [gen_155_ok]
  show (normSeq 1 5 5 0 rng 0).getD t 0 = _
  rw [normSeq, injSeq, seqLen_five, List.map_map, getD_map_range _ _ _ ht]
  simp

/-! Fold bounds for the running max-range -/

theorem foldl_max_le_start (r : ℕ → ℝ) :
    ∀ (l : List ℕ) (a : ℝ), a ≤ l.foldl (fun acc j => max acc (r j)) a := by
  intro l
  induction l with
  | nil => exact fun a => le_refl a
  | cons j l ih =>
    exact fun a => le_trans (le_max_left a (r j)) (ih (max a (r j)))

theorem mem_le_foldl_max (r : ℕ → ℝ) :
    ∀ (l : List ℕ) (a : ℝ) (i : ℕ), i ∈ l →
      r i ≤ l.foldl (fun acc j => max acc (r j)) a := by
  intro l
  induction l with
  | nil => intro a i h; cases h
  | cons j l ih =>
    intro a i h
    rcases List.mem_cons.mp h with h1 | h2
    · subst h1
      exact le_trans (le_max_right a (r i)) (foldl_max_le_start r l _)
    · exact ih _ i h2

theorem rangeOf_le_maxRange (maxL minL : ℕ) (nl : ℝ) (rng : RNG)
    (i n : ℕ) (h : i < n) :
    rangeOf maxL minL nl rng i ≤ maxRange maxL minL nl rng n :=
  mem_le_foldl_max _ _ 0 i (List.mem_range.mpr h)

/-! Claim theorems for the generator -/

/-- C3 counterexample: on a call with `min_length = max_length = 5 ≥ 3` whose
long-term signal is 1, the first pre-normalization value of the sequence is
2 (the injection raised it), not the label 1. -/
theorem C3_counterexample :
    (injSeq 5 5 0 oneRNG 0).getD 0 0 = 2 ∧ labelOf oneRNG 0 = 1 ∧
    (2 : ℝ) ≠ 1 := by
  refine ⟨?_, rfl, by norm_num⟩
  rw [injSeq, seqLen_five, getD_map_range _ _ _ (by norm_num)]
  norm_num [preVal_zero, oneRNG, sigR]

/-- C3 amended: with `min_length ≥ 3`, every sequence has length at least 3
and its first 3 values before the long-term injection all equal the label;
the values the injection leaves at those positions still equal the label
whenever the signal is 0 or the sequence length is at least 13. -/
theorem C3_first_three_equal_label (maxL minL : ℕ) (nl : ℝ) (rng : RNG)
    (i t : ℕ) (hmin : 3 ≤ minL) (ht : t < 3) :
    3 ≤ seqLen maxL minL rng i ∧
    preVal nl rng i t = (labelOf rng i : ℝ) ∧
    (rng.signal i = false ∨ 13 ≤ seqLen maxL minL rng i →
      (injSeq maxL minL nl rng i).getD t 0 = (labelOf rng i : ℝ)) := by
  have hlen : 3 ≤ seqLen maxL minL rng i :=
    le_trans hmin (Nat.le_add_right _ _)
  have hpre : preVal nl rng i t = (labelOf rng i : ℝ) := by
    interval_cases t <;>
      cases h : rng.signal i <;>
        simp [preVal_zero, preVal_one, preVal_two, sigR, labelOf, h]
  refine ⟨hlen, hpre, fun hc => ?_⟩
  rw [injSeq, getD_map_range _ _ _ (lt_of_lt_of_le ht hlen)]
  rcases hc with hs | hL
  · simp [hs, hpre]
  · have : ¬ (seqLen maxL minL rng i - 10 ≤ t) := by omega
    simp [this, hpre]

/-- Witness for C3 at concrete parameters with signal 0. -/
theorem C3_witness :
    3 ≤ 5 ∧ 0 < 3 ∧
    (3 ≤ seqLen 5 5 constRNG 0 ∧
      preVal 0 constRNG 0 0 = (labelOf constRNG 0 : ℝ) ∧
      (constRNG.signal 0 = false ∨ 13 ≤ seqLen 5 5 constRNG 0 →
        (injSeq 5 5 0 constRNG 0).getD 0 0 = (labelOf constRNG 0 : ℝ))) :=
  ⟨by norm_num, by norm_num,
    C3_first_three_equal_label 5 5 0 constRNG 0 0 (by norm_num) (by norm_num)⟩

/-- C2 amended: each sequence's pre-injection range, divided by the global
normalization divisor, is at most 1; individual post-normalization entries
can exceed 1 in absolute value because the long-term injection happens after
the range is recorded. -/
theorem C2_normalized_range_bounded (num maxL minL : ℕ) (nl : ℝ) (rng : RNG)
    (i : ℕ) (hi : i < num) (hpos : 0 < maxRange maxL minL nl rng num) :
    rangeOf maxL minL nl rng i / maxRange maxL minL nl rng num ≤ 1 :=
  (div_le_one hpos).mpr (rangeOf_le_maxRange maxL minL nl rng i num hi)

/-- Witness for C2 with draws that cancel the oscillation, giving a positive
global max-range of 9/5. -/
theorem C2_witness :
    0 < 1 ∧ 0 < maxRange 5 5 1 cancelRNG 1 ∧
    rangeOf 5 5 1 cancelRNG 0 / maxRange 5 5 1 cancelRNG 1 ≤ 1 := by
  have hpv0 : preVal 1 cancelRNG 0 0 = 0 := by
    norm_num [preVal_zero, cancelRNG, sigR]
  have hpv1 : preVal 1 cancelRNG 0 1 = 0 := by
    norm_num [preVal_one, cancelRNG, sigR]
  have hpv2 : preVal 1 cancelRNG 0 2 = 0 := by
    norm_num [preVal_two, cancelRNG, sigR]
  have hpv3 : preVal 1 cancelRNG 0 3 = 1 := by
    rw [preVal_three, hpv2]
    norm_num [cancelRNG]
  have hpv4 : preVal 1 cancelRNG 0 4 = 9 / 5 := by
    rw [preVal_four, hpv3]
    norm_num [cancelRNG]
  have hps : preSeq 5 5 1 cancelRNG 0 = [0, 0, 0, 1, 9 / 5] := by
    simp [preSeq, seqLen_five, show List.range 5 = [0, 1, 2, 3, 4] from rfl,
      hpv0, hpv1, hpv2, hpv3, hpv4]
  have hmax : listMax (preSeq 5 5 1 cancelRNG 0) = 9 / 5 := by
    rw [hps]
    norm_num [listMax, List.foldl, max_def]
  have hmin : listMin (preSeq 5 5 1 cancelRNG 0) = 0 := by
    rw [hps]
    norm_num [listMin, List.foldl, min_def]
  have hR : maxRange 5 5 1 cancelRNG 1 = 9 / 5 := by
    have h1 : maxRange 5 5 1 cancelRNG 1 = max 0 (rangeOf 5 5 1 cancelRNG 0) := by
      simp [maxRange, show List.range 1 = [0] from rfl]
    rw [h1, rangeOf, hmax, hmin]
    norm_num [max_def]
  have hpos : 0 < maxRange 5 5 1 cancelRNG 1 := by rw [hR]; norm_num
  exact ⟨Nat.zero_lt_one, hpos,
    C2_normalized_range_bounded 1 5 5 1 cancelRNG 0 Nat.zero_lt_one hpos⟩

/-- C2 counterexample: on a call with signal 1 and a short sequence, the
first returned entry is `2` divided by a max-range smaller than `2`, so its
absolute value exceeds 1. -/
theorem C2_counterexample :
    1 < |retEntry (generate_synthetic_sequences 1 5 5 0 oneRNG) 0| := by
  have hs3l := sin3_gt
  have hs3u := sin3_lt
  have hs4l := sin4_gt
  have hs4u := sin4_lt
  have hpv0 : preVal 0 oneRNG 0 0 = 1 := by
    norm_num [preVal_zero, oneRNG, sigR]
  have hpv1 : preVal 0 oneRNG 0 1 = 1 := by
    norm_num [preVal_one, oneRNG, sigR]
  have hpv2 : preVal 0 oneRNG 0 2 = 1 := by
    norm_num [preVal_two, oneRNG, sigR]
  have hpv3 : preVal 0 oneRNG 0 3 = 4 / 5 + Real.sin (3 / 10) := by
    rw [preVal_three, hpv2]; ring
  have hpv4 : preVal 0 oneRNG 0 4 =
      16 / 25 + 4 / 5 * Real.sin (3 / 10) + Real.sin (2 / 5) := by
    rw [preVal_four, hpv3]; ring
  have hps : preSeq 5 5 0 oneRNG 0 =
      [1, 1, 1, 4 / 5 + Real.sin (3 / 10),
        16 / 25 + 4 / 5 * Real.sin (3 / 10) + Real.sin (2 / 5)] := by
    simp [preSeq, seqLen_five, show List.range 5 = [0, 1, 2, 3, 4] from rfl,
      hpv0, hpv1, hpv2, hpv3, hpv4]
  have h1p3 : (1 : ℝ) ≤ 4 / 5 + Real.sin (3 / 10) := by linarith
  have hp34 : 4 / 5 + Real.sin (3 / 10) ≤
      16 / 25 + 4 / 5 * Real.sin (3 / 10) + Real.sin (2 / 5) := by linarith
  have h1p4 : (1 : ℝ) ≤
      16 / 25 + 4 / 5 * Real.sin (3 / 10) + Real.sin (2 / 5) := by linarith
  have hmax : listMax (preSeq 5 5 0 oneRNG 0) =
      16 / 25 + 4 / 5 * Real.sin (3 / 10) + Real.sin (2 / 5) := by
    rw [hps]
    show List.foldl max 1 [1, 1, 4 / 5 + Real.sin (3 / 10),
      16 / 25 + 4 / 5 * Real.sin (3 / 10) + Real.sin (2 / 5)] = _
    rw [List.foldl_cons, List.foldl_cons, List.foldl_cons, List.foldl_cons,
      List.foldl_nil, max_self, max_self, max_eq_right h1p3,
      max_eq_right hp34]
  have hmin : listMin (preSeq 5 5 0 oneRNG 0) = 1 := by
    rw [hps]
    show List.foldl min 1 [1, 1, 4 / 5 + Real.sin (3 / 10),
      16 / 25 + 4 / 5 * Real.sin (3 / 10) + Real.sin (2 / 5)] = _
    rw [List.foldl_cons, List.foldl_cons, List.foldl_cons, List.foldl_cons,
      List.foldl_nil, min_self, min_self, min_eq_left h1p3,
      min_eq_left h1p4]
  have hR : maxRange 5 5 0 oneRNG 1 =
      16 / 25 + 4 / 5 * Real.sin (3 / 10) + Real.sin (2 / 5) - 1 := by
    have h1 : maxRange 5 5 0 oneRNG 1 = max 0 (rangeOf 5 5 0 oneRNG 0) := by
      simp [maxRange, show List.range 1 = [0] from rfl]
    rw [h1, rangeOf, hmax, hmin, max_eq_right (by linarith)]
  have hent : retEntry (generate_synthetic_sequences 1 5 5 0 oneRNG) 0 =
      2 / (16 / 25 + 4 / 5 * Real.sin (3 / 10) + Real.sin (2 / 5) - 1) := by
    rw [retEntry_gen_155 oneRNG 0 (by norm_num), hR, hpv0,
      show oneRNG.signal 0 = true from rfl]
    norm_num
  rw [hent]
  have hd : 0 < 16 / 25 + 4 / 5 * Real.sin (3 / 10) + Real.sin (2 / 5) - 1 := by
    linarith
  rw [abs_of_pos (div_pos (by norm_num) hd), lt_div_iff₀ hd]
  linarith

/-- C7 counterexample: with `num_sequences = 1`, `min_length = max_length =
5`, `noise_level = 0` and signal 0, the returned (normalized) entry at
position 3 does not equal `0.8 * value[2] + sin(3/10)`: normalization rescales
the recurrence. -/
theorem C7_counterexample :
    retEntry (generate_synthetic_sequences 1 5 5 0 constRNG) 3 ≠
      0.8 * retEntry (generate_synthetic_sequences 1 5 5 0 constRNG) 2 +
        Real.sin (3 / 10) := by
  have hs3l := sin3_gt
  have hs3u := sin3_lt
  have hs4l := sin4_gt
  have hs4u := sin4_lt
  have hpv0 : preVal 0 constRNG 0 0 = 0 := by
    norm_num [preVal_zero, constRNG, sigR]
  have hpv1 : preVal 0 constRNG 0 1 = 0 := by
    norm_num [preVal_one, constRNG, sigR]
  have hpv2 : preVal 0 constRNG 0 2 = 0 := by
    norm_num [preVal_two, constRNG, sigR]
  have hpv3 : preVal 0 constRNG 0 3 = Real.sin (3 / 10) := by
    rw [preVal_three, hpv2]; ring
  have hpv4 : preVal 0 constRNG 0 4 =
      4 / 5 * Real.sin (3 / 10) + Real.sin (2 / 5) := by
    rw [preVal_four, hpv3]; ring
  have hps : preSeq 5 5 0 constRNG 0 =
      [0, 0, 0, Real.sin (3 / 10),
        4 / 5 * Real.sin (3 / 10) + Real.sin (2 / 5)] := by
    simp [preSeq, seqLen_five, show List.range 5 = [0, 1, 2, 3, 4] from rfl,
      hpv0, hpv1, hpv2, hpv3, hpv4]
  have h0p3 : (0 : ℝ) ≤ Real.sin (3 / 10) := by linarith
  have hp34 : Real.sin (3 / 10) ≤
      4 / 5 * Real.sin (3 / 10) + Real.sin (2 / 5) := by linarith
  have h0p4 : (0 : ℝ) ≤
      4 / 5 * Real.sin (3 / 10) + Real.sin (2 / 5) := by linarith
  have hmax : listMax (preSeq 5 5 0 constRNG 0) =
      4 / 5 * Real.sin (3 / 10) + Real.sin (2 / 5) := by
    rw [hps]
    show List.foldl max 0 [0, 0, Real.sin (3 / 10),
      4 / 5 * Real.sin (3 / 10) + Real.sin (2 / 5)] = _
    rw [List.foldl_cons, List.foldl_cons, List.foldl_cons, List.foldl_cons,
      List.foldl_nil, max_self, max_self, max_eq_right h0p3,
      max_eq_right hp34]
  have hmin : listMin (preSeq 5 5 0 constRNG 0) = 0 := by
    rw [hps]
    show List.foldl min 0 [0, 0, Real.sin (3 / 10),
      4 / 5 * Real.sin (3 / 10) + Real.sin (2 / 5)] = _
    rw [List.foldl_cons, List.foldl_cons, List.foldl_cons, List.foldl_cons,
      List.foldl_nil, min_self, min_self, min_eq_left h0p3,
      min_eq_left h0p4]
  have hR : maxRange 5 5 0 constRNG 1 =
      4 / 5 * Real.sin (3 / 10) + Real.sin (2 / 5) := by
    have h1 : maxRange 5 5 0 constRNG 1 = max 0 (rangeOf 5 5 0 constRNG 0) := by
      simp [maxRange, show List.range 1 = [0] from rfl]
    rw [h1, rangeOf, hmax, hmin, sub_zero, max_eq_right (by linarith)]
  have he2 : retEntry (generate_synthetic_sequences 1 5 5 0 constRNG) 2 = 0 := by
    rw [retEntry_gen_155 constRNG 2 (by norm_num), hpv2,
      show constRNG.signal 0 = false from rfl]
    norm_num
  have he3 : retEntry (generate_synthetic_sequences 1 5 5 0 constRNG) 3 =
      Real.sin (3 / 10) /
        (4 / 5 * Real.sin (3 / 10) + Real.sin (2 / 5)) := by
    rw [retEntry_gen_155 constRNG 3 (by norm_num), hR, hpv3,
      show constRNG.signal 0 = false from rfl]
    norm_num
  rw [he2, he3]
  have hp4pos : 0 < 4 / 5 * Real.sin (3 / 10) + Real.sin (2 / 5) := by linarith
  have hp4lt : 4 / 5 * Real.sin (3 / 10) + Real.sin (2 / 5) < 1 := by linarith
  intro h
  rw [div_eq_iff (ne_of_gt hp4pos)] at h
  nlinarith [h, hs3l, hp4lt]

/-- C7 amended: on the call with `num_sequences = 1`,
`min_length = max_length = 5`, `noise_level = 0`, the returned sequence's
first 3 entries are identical, and the pre-injection, pre-normalization
values at positions 3 and 4 follow `0.8 * prev + sin(t/10)` exactly, with no
stochastic deviation. -/
theorem C7_noiseless_recurrence (rng : RNG) :
    retEntry (generate_synthetic_sequences 1 5 5 0 rng) 0 =
      retEntry (generate_synthetic_sequences 1 5 5 0 rng) 1 ∧
    retEntry (generate_synthetic_sequences 1 5 5 0 rng) 1 =
      retEntry (generate_synthetic_sequences 1 5 5 0 rng) 2 ∧
    preVal 0 rng 0 3 = 0.8 * preVal 0 rng 0 2 + Real.sin (3 / 10) ∧
    preVal 0 rng 0 4 = 0.8 * preVal 0 rng 0 3 + Real.sin (2 / 5) := by
  refine ⟨?_, ?_, by rw [preVal_three]; ring, by rw [preVal_four]; ring⟩
  · rw [retEntry_gen_155 rng 0 (by norm_num),
      retEntry_gen_155 rng 1 (by norm_num), preVal_zero, preVal_one]
  · rw [retEntry_gen_155 rng 1 (by norm_num),
      retEntry_gen_155 rng 2 (by norm_num), preVal_one, preVal_two]
